import Mathlib

/-!
Verification of the spec-codec core of `go-sourcegraph`.

The Go sources embedded here are `sourcegraph/pulls.go` (pull-request and
pull-request-comment specs, their route-variable marshalling and
unmarshalling, `PullRequest.Spec`, and the argument validation of
`EditComment`) together with the person-spec codec, which is exercised by
`TestPersonSpec` but whose implementation is not part of the excerpt; the
person-spec functions and the `RepoSpec` collaborator are therefore modelled
from the specification document.

Go strings are Lean `String`s, Go `int` is `Int` (with the 64-bit range made
explicit where `strconv` cares about it), Go `map[string]string` is an
association list, and Go multiple-return `(T, error)` is `T × Option Err`.
A Go panic is modelled by an `Option` result being `none`.
-/

/-- Error values observable from the embedded code.  `numError fn num kind`
mirrors Go's `strconv.NumError`; `custom` mirrors `fmt.Errorf`. -/
inductive NumErrKind where
  | malformed
  | outOfRange
deriving DecidableEq

inductive Err where
  | invalidFormat
  | repoSpecMissing
  | numError (fn : String) (num : String) (kind : NumErrKind)
  | custom (msg : String)
deriving DecidableEq

/-- Numeric value of an ASCII digit character. -/
def digitVal (c : Char) : Nat := c.toNat - 48

/-- Value of a big-endian list of ASCII digit characters. -/
def parseDigits (l : List Char) : Nat :=
  l.foldl (fun acc c => acc * 10 + digitVal c) 0

/-- Fuel-driven digit emitter underlying `natToDigits`; fuel-indexed so that
it is structurally recursive and hence kernel-computable. -/
def natToDigitsAux : Nat → Nat → List Char → List Char
  | 0, _, acc => acc
  | fuel + 1, n, acc =>
    if n < 10 then Nat.digitChar n :: acc
    else natToDigitsAux fuel (n / 10) (Nat.digitChar (n % 10) :: acc)

/-- Big-endian decimal digits of a natural number (the digit core of Go's
`strconv.Itoa`). -/
def natToDigits (n : Nat) : List Char := natToDigitsAux (n + 1) n []

theorem natToDigitsAux_fuel (f1 f2 n : Nat) (acc : List Char)
    (h1 : n < f1) (h2 : n < f2) :
    natToDigitsAux f1 n acc = natToDigitsAux f2 n acc := by
  induction f1 generalizing f2 n acc with
  | zero => omega
  | succ f1 ih =>
    cases f2 with
    | zero => omega
    | succ f2 =>
      by_cases h : n < 10
      · simp [natToDigitsAux, h]
      · have hn : 0 < n := by omega
        have hd : n / 10 < n := Nat.div_lt_self hn (by omega)
        simp only [natToDigitsAux, if_neg h]
        exact ih _ _ _ (by omega) (by omega)

theorem natToDigitsAux_acc (fuel n : Nat) (acc : List Char) (h : n < fuel) :
    natToDigitsAux fuel n acc = natToDigitsAux fuel n [] ++ acc := by
  induction fuel generalizing n acc with
  | zero => omega
  | succ fuel ih =>
    by_cases h10 : n < 10
    · simp [natToDigitsAux, h10]
    · have hn : 0 < n := by omega
      have hd : n / 10 < n := Nat.div_lt_self hn (by omega)
      simp only [natToDigitsAux, if_neg h10]
      rw [ih (n / 10) (Nat.digitChar (n % 10) :: acc) (by omega),
        ih (n / 10) [Nat.digitChar (n % 10)] (by omega)]
      simp

/-- Recursion equation for `natToDigits`, freeing later proofs from fuel. -/
theorem natToDigits_eq (n : Nat) :
    natToDigits n =
      if n < 10 then [Nat.digitChar n]
      else natToDigits (n / 10) ++ [Nat.digitChar (n % 10)] := by
  by_cases h : n < 10
  · simp [natToDigits, natToDigitsAux, h]
  · have hn : 0 < n := by omega
    have hd : n / 10 < n := Nat.div_lt_self hn (by omega)
    rw [if_neg h]
    have h1 : natToDigits n = natToDigitsAux n (n / 10) [Nat.digitChar (n % 10)] := by
      simp only [natToDigits, natToDigitsAux, if_neg h]
    rw [h1, natToDigitsAux_acc n (n / 10) _ (by omega),
      natToDigitsAux_fuel n (n / 10 + 1) (n / 10) [] (by omega) (by omega)]
    rfl

theorem digitVal_digitChar (d : Nat) (h : d < 10) :
    digitVal (Nat.digitChar d) = d := by
  interval_cases d <;> rfl

theorem isDigit_digitChar (d : Nat) (h : d < 10) :
    (Nat.digitChar d).isDigit = true := by
  interval_cases d <;> rfl

theorem parseDigits_append_one (l : List Char) (c : Char) :
    parseDigits (l ++ [c]) = parseDigits l * 10 + digitVal c := by
  simp [parseDigits, List.foldl_append]

theorem parseDigits_natToDigits (n : Nat) :
    parseDigits (natToDigits n) = n := by
  induction n using Nat.strong_induction_on with
  | _ n ih =>
    rw [natToDigits_eq]
    by_cases h : n < 10
    · simp [parseDigits, digitVal_digitChar n h, if_pos h]
    · have hn : 0 < n := by omega
      have hd : n / 10 < n := Nat.div_lt_self hn (by omega)
      rw [if_neg h, parseDigits_append_one, ih (n / 10) hd,
        digitVal_digitChar (n % 10) (Nat.mod_lt n (by omega))]
      omega

theorem natToDigits_all_digit (n : Nat) :
    (natToDigits n).all Char.isDigit = true := by
  induction n using Nat.strong_induction_on with
  | _ n ih =>
    rw [natToDigits_eq]
    by_cases h : n < 10
    · simp [if_pos h, isDigit_digitChar n h]
    · have hn : 0 < n := by omega
      have hd : n / 10 < n := Nat.div_lt_self hn (by omega)
      rw [if_neg h]
      simp [List.all_append, ih (n / 10) hd,
        isDigit_digitChar (n % 10) (Nat.mod_lt n (by omega))]

theorem natToDigits_ne_nil (n : Nat) : natToDigits n ≠ [] := by
  rw [natToDigits_eq]
  by_cases h : n < 10 <;> simp [h]

theorem isDigit_not_sign (c : Char) (h : c.isDigit = true) :
    c ≠ '-' ∧ c ≠ '+' := by
  constructor <;> intro hc <;> subst hc <;> simp at h

/-- Minimum value of Go's 64-bit `int` (`-(2^63)`). -/
def intMin : Int := -9223372036854775808

/-- Maximum value of Go's 64-bit `int` (`2^63 - 1`). -/
def intMax : Int := 9223372036854775807

/-- Go `strconv.Itoa`: decimal string of an `int`. -/
def goItoa (n : Int) : String :=
  if n < 0 then { data := '-' :: natToDigits n.natAbs }
  else { data := natToDigits n.toNat }

/-- Sign stripping done by Go `strconv.ParseInt`: an optional leading
`-` or `+` is removed and remembered. -/
def stripSign (l : List Char) : Bool × List Char :=
  if l.head? = some '-' then (true, l.tail)
  else if l.head? = some '+' then (false, l.tail)
  else (false, l)

/-- Digit-and-range phase of Go `strconv.Atoi` on the stripped digits: a
syntax error (with result `0`) when the digits are empty or non-numeric, a
range error (with the nearest representable `int`, as `strconv.ParseInt`
clamps) on 64-bit overflow, and the parsed value otherwise. -/
def atoiVal (neg : Bool) (digits : List Char) (s : String) : Int × Option Err :=
  if digits = [] ∨ digits.all Char.isDigit = false then
    (0, some (Err.numError "Atoi" s NumErrKind.malformed))
  else if (if neg then -(parseDigits digits : Int) else (parseDigits digits : Int)) < intMin then
    (intMin, some (Err.numError "Atoi" s NumErrKind.outOfRange))
  else if intMax < (if neg then -(parseDigits digits : Int) else (parseDigits digits : Int)) then
    (intMax, some (Err.numError "Atoi" s NumErrKind.outOfRange))
  else ((if neg then -(parseDigits digits : Int) else (parseDigits digits : Int)), none)

/-- Go `strconv.Atoi`: optional sign followed by decimal digits. -/
def goAtoi (s : String) : Int × Option Err :=
  atoiVal (stripSign s.data).1 (stripSign s.data).2 s

theorem stripSign_neg (rest : List Char) : stripSign ('-' :: rest) = (true, rest) := by
  simp [stripSign]

theorem stripSign_digit (c : Char) (rest : List Char) (h1 : c ≠ '-') (h2 : c ≠ '+') :
    stripSign (c :: rest) = (false, c :: rest) := by
  simp [stripSign, h1, h2]

theorem atoiVal_ok (neg : Bool) (digits : List Char) (s : String)
    (hne : digits ≠ []) (hdig : digits.all Char.isDigit = true) (v : Int)
    (hv : (if neg then -(parseDigits digits : Int) else (parseDigits digits : Int)) = v)
    (hlo : intMin ≤ v) (hhi : v ≤ intMax) :
    atoiVal neg digits s = (v, none) := by
  unfold atoiVal
  rw [if_neg (by simp [hne, hdig]), hv, if_neg (by omega), if_neg (by omega)]

theorem atoiVal_malformed (neg : Bool) (digits : List Char) (s : String)
    (h : digits = [] ∨ digits.all Char.isDigit = false) :
    atoiVal neg digits s = (0, some (Err.numError "Atoi" s NumErrKind.malformed)) := by
  unfold atoiVal
  rw [if_pos h]

theorem goAtoi_goItoa (n : Int) (h1 : intMin ≤ n) (h2 : n ≤ intMax) :
    goAtoi (goItoa n) = (n, none) := by
  by_cases hn : n < 0
  · have hdata : (goItoa n).data = '-' :: natToDigits n.natAbs := by
      simp [goItoa, if_pos hn]
    have habs : (n.natAbs : Int) = -n := by omega
    unfold goAtoi
    rw [hdata, stripSign_neg]
    exact atoiVal_ok true _ _ (natToDigits_ne_nil n.natAbs)
      (natToDigits_all_digit n.natAbs) n
      (by rw [if_pos rfl, parseDigits_natToDigits, habs]; omega) h1 h2
  · obtain ⟨c, t, hct⟩ := List.exists_cons_of_ne_nil (natToDigits_ne_nil n.toNat)
    have hdata : (goItoa n).data = c :: t := by
      simp [goItoa, if_neg hn, hct]
    have hall : (c :: t).all Char.isDigit = true := by
      rw [← hct]; exact natToDigits_all_digit n.toNat
    have hc : c.isDigit = true := by
      simp only [List.all_cons, Bool.and_eq_true] at hall; exact hall.1
    obtain ⟨hc1, hc2⟩ := isDigit_not_sign c hc
    have htn : (n.toNat : Int) = n := Int.toNat_of_nonneg (by omega)
    unfold goAtoi
    rw [hdata, stripSign_digit c t hc1 hc2]
    exact atoiVal_ok false _ _ (by simp) hall n
      (by rw [if_neg (by simp), ← hct, parseDigits_natToDigits, htn]) h1 h2

/-- Go `map[string]string`, as the association list of its entries. -/
abbrev RouteVarsMap := List (String × String)

/-- Go map indexing `m[k]`: the value stored at `k`, or the zero value `""`
when the key is absent. -/
def mapGet : RouteVarsMap → String → String
  | [], _ => ""
  | (k', v') :: rest, k => if k' = k then v' else mapGet rest k

/-- Go map assignment `m[k] = v`: replaces the entry at `k`, or appends a new
entry when the key is absent. -/
def mapSet : RouteVarsMap → String → String → RouteVarsMap
  | [], k, v => [(k, v)]
  | (k', v') :: rest, k, v =>
    if k' = k then (k, v) :: rest else (k', v') :: mapSet rest k v

theorem mapGet_mapSet_ne (m : RouteVarsMap) (k k' v : String) (h : k' ≠ k) :
    mapGet (mapSet m k v) k' = mapGet m k' := by
  induction m with
  | nil => simp [mapGet, mapSet, Ne.symm h]
  | cons a rest ih =>
    obtain ⟨ka, va⟩ := a
    by_cases hk : ka = k
    · subst hk
      simp [mapSet, mapGet, Ne.symm h]
    · simp [mapSet, mapGet, hk, ih]

/-- `RepoSpec` from `repo.go` (treated by the spec as an opaque URI-carrying
collaborator). -/
structure RepoSpec where
  URI : String
deriving DecidableEq

/-- `PullRequestSpec` from `pulls.go`. -/
structure PullRequestSpec where
  Repo : RepoSpec
  Number : Int
deriving DecidableEq

/-- `PullRequestCommentSpec` from `pulls.go`. -/
structure PullRequestCommentSpec where
  Pull : PullRequestSpec
  Comment : Int
deriving DecidableEq

/-- `(PullRequestSpec).RouteVars` from `pulls.go`. -/
def PullRequestSpec.RouteVars (s : PullRequestSpec) : RouteVarsMap :=
  [("RepoSpec", s.Repo.URI), ("Pull", goItoa s.Number)]

/-- `(PullRequestCommentSpec).RouteVars` from `pulls.go`: the pull-request
map mutated with the extra `CommentID` key. -/
def PullRequestCommentSpec.RouteVars (c : PullRequestCommentSpec) : RouteVarsMap :=
  mapSet c.Pull.RouteVars "CommentID" (goItoa c.Comment)

/-- Modelled from the spec: `UnmarshalRepoSpec`, the RepoSpec collaborator's
unmarshalling contract, is not part of the source excerpt.  The spec treats
it as opaque and assumed correct: it recovers the repository from the
`RepoSpec` route variable, and fails (spec section 7, PropagatedError:
"malformed repo spec") when that variable is absent — absence and the empty
string being indistinguishable through a Go map read. -/
def UnmarshalRepoSpec (v : RouteVarsMap) : RepoSpec × Option Err :=
  if mapGet v "RepoSpec" = "" then ({ URI := "" }, some Err.repoSpecMissing)
  else ({ URI := mapGet v "RepoSpec" }, none)

/-- `UnmarshalPullRequestSpec` from `pulls.go`: repo extraction first (its
error returned as-is, with the partially-assigned spec), then `strconv.Atoi`
of the `Pull` route variable. -/
def UnmarshalPullRequestSpec (v : RouteVarsMap) : PullRequestSpec × Option Err :=
  match (UnmarshalRepoSpec v).2 with
  | some e => ({ Repo := (UnmarshalRepoSpec v).1, Number := 0 }, some e)
  | none =>
    ({ Repo := (UnmarshalRepoSpec v).1, Number := (goAtoi (mapGet v "Pull")).1 },
      (goAtoi (mapGet v "Pull")).2)

/-- `UnmarshalPullRequestCommentSpec` from `pulls.go`: written with named
return values, so both error paths return the zero-value spec — the `Pull`
and `Comment` fields are assigned only after both parses succeed. -/
def UnmarshalPullRequestCommentSpec (v : RouteVarsMap) :
    PullRequestCommentSpec × Option Err :=
  match (UnmarshalPullRequestSpec v).2 with
  | some e => ({ Pull := { Repo := { URI := "" }, Number := 0 }, Comment := 0 }, some e)
  | none =>
    match (goAtoi (mapGet v "CommentID")).2 with
    | some e => ({ Pull := { Repo := { URI := "" }, Number := 0 }, Comment := 0 }, some e)
    | none =>
      ({ Pull := (UnmarshalPullRequestSpec v).1,
         Comment := (goAtoi (mapGet v "CommentID")).1 }, none)

/-- Go `strings.Split` with a one-character separator, on the character
list. -/
def splitChars (sep : Char) : List Char → List (List Char)
  | [] => [[]]
  | c :: rest =>
    match splitChars sep rest with
    | [] => [[c]]
    | g :: gs => if c = sep then [] :: g :: gs else (c :: g) :: gs

/-- Go `strings.Split(s, sep)` for a one-character separator. -/
def goSplit (s : String) (sep : Char) : List String :=
  (splitChars sep s.data).map fun l => { data := l }

/-- Go `strings.TrimPrefix`: drops `pre` from the front of `s` when present,
otherwise returns `s` unchanged. -/
def goTrim (s pre : String) : String :=
  if s.data.take pre.data.length = pre.data then { data := s.data.drop pre.data.length }
  else s

/-- Go `strings.Join`. -/
def goJoin (elems : List String) (sep : String) : String :=
  match elems with
  | [] => ""
  | e :: rest => rest.foldl (fun acc x => acc ++ sep ++ x) e

/-- `PullRequest` from `pulls.go`: the embedded `github.PullRequest` fields
read by this code (`HTMLURL`, `Number`), Go pointers becoming `Option`. -/
structure PullRequest where
  HTMLURL : Option String
  Number : Option Int
deriving DecidableEq

/-- `(*PullRequest).Spec` from `pulls.go`: trims `https://`, splits the rest
on `/`, rejoins the first three segments as the repo URI, and reads the
`Number` field.  `none` models a Go panic: a nil dereference of `HTMLURL` or
`Number`, or the out-of-bounds slice `[0:3]` when there are fewer than three
segments. -/
def PullRequest.Spec (r : PullRequest) : Option PullRequestSpec :=
  match r.HTMLURL with
  | none => none
  | some url =>
    if 3 ≤ (goSplit (goTrim url "https://") '/').length then
      match r.Number with
      | none => none
      | some n =>
        some { Repo := { URI := goJoin ((goSplit (goTrim url "https://") '/').take 3) "/" },
               Number := n }
    else none

/-- `PullRequestComment` from `pulls.go`: the `Published` field plus the one
embedded `github.PullRequestComment` field this code reads (`ID`, a Go
`*int`). -/
structure PullRequestComment where
  Published : Bool
  ID : Option Int
deriving DecidableEq

/-- Pre-request logic of `(*pullRequestsService).EditComment` from
`pulls.go`: the nil check on `comment.ID` and the route variables passed to
the URL builder.  The error branch returns before any URL or request is
built; the HTTP client collaborator that consumes the route variables is out
of scope. -/
def editCommentRouteVars (pull : PullRequestSpec) (comment : PullRequestComment) :
    Except Err RouteVarsMap :=
  match comment.ID with
  | none => Except.error (Err.custom "comment ID not specified")
  | some id => Except.ok (PullRequestCommentSpec.RouteVars { Pull := pull, Comment := id })

/-- `PersonSpec` (declared outside the excerpt; shape fixed by spec section 3
and `TestPersonSpec`). -/
structure PersonSpec where
  Login : String
  Email : String
  UID : Int
deriving DecidableEq

/-- Modelled from the spec: `ParsePersonSpec` is exercised by
`TestPersonSpec` but its implementation is not in the source excerpt.  Spec
section 4.1: if the text begins with `$` the remainder must parse as a
non-negative integer (digits), giving a UID-populated spec, and the parse
fails with InvalidFormat otherwise; else a text containing `@` is taken
verbatim as `Email`; else the text is taken verbatim as `Login`. -/
def ParsePersonSpec (s : String) : PersonSpec × Option Err :=
  if s.data.head? = some '$' then
    if s.data.tail ≠ [] ∧ s.data.tail.all Char.isDigit = true then
      ({ Login := "", Email := "", UID := (parseDigits s.data.tail : Int) }, none)
    else ({ Login := "", Email := "", UID := 0 }, some Err.invalidFormat)
  else if '@' ∈ s.data then ({ Login := "", Email := s, UID := 0 }, none)
  else ({ Login := s, Email := "", UID := 0 }, none)

/-- Modelled from the spec: `(*PersonSpec).PathComponent` (the Format
operation) is not in the source excerpt.  Spec section 4.1: a UID-populated
spec formats as `$` followed by decimal digits, an email-populated spec as
the email verbatim, a login-populated spec as the login verbatim.  The spec
leaves the multiply-populated case undefined; this model's branch order only
matters there. -/
def PersonSpec.PathComponent (s : PersonSpec) : String :=
  if 0 < s.UID then "$" ++ goItoa s.UID
  else if s.Email ≠ "" then s.Email
  else s.Login

/-- Number of populated fields of a `PersonSpec` (spec section 3: `Login`
non-empty, `Email` non-empty, `UID > 0`). -/
def popCount (s : PersonSpec) : Nat :=
  (if s.Login ≠ "" then 1 else 0) + (if s.Email ≠ "" then 1 else 0) +
    (if 0 < s.UID then 1 else 0)

/-- C4: `PullRequestSpec.RouteVars` is exactly the two-entry map
`{RepoSpec ↦ Repo.URI, Pull ↦ decimal Number}`, and a comment spec's map is
the pull-request map extended (not replaced) with the single additional
`CommentID` entry; on the concrete example
`{Pull:{Repo:{URI:"a/b"}, Number:5}, Comment:7}` the map carries
`RepoSpec="a/b"`, `Pull="5"`, `CommentID="7"`. -/
theorem routeVars_shape :
    (∀ s : PullRequestSpec,
        s.RouteVars = [("RepoSpec", s.Repo.URI), ("Pull", goItoa s.Number)])
  ∧ (∀ c : PullRequestCommentSpec,
        c.RouteVars = c.Pull.RouteVars ++ [("CommentID", goItoa c.Comment)])
  ∧ mapGet (PullRequestCommentSpec.RouteVars
      { Pull := { Repo := { URI := "a/b" }, Number := 5 }, Comment := 7 }) "RepoSpec" = "a/b"
  ∧ mapGet (PullRequestCommentSpec.RouteVars
      { Pull := { Repo := { URI := "a/b" }, Number := 5 }, Comment := 7 }) "Pull" = "5"
  ∧ mapGet (PullRequestCommentSpec.RouteVars
      { Pull := { Repo := { URI := "a/b" }, Number := 5 }, Comment := 7 }) "CommentID" = "7" := by
  refine ⟨fun s => rfl, fun c => ?_, by decide, by decide, by decide⟩
  simp [PullRequestCommentSpec.RouteVars, PullRequestSpec.RouteVars, mapSet]

/-- C9: `PullRequest.Spec` returns without fault exactly when `HTMLURL` and
`Number` are non-nil and the URL, after trimming `https://`, splits on `/`
into at least three segments; otherwise the operation is a fault (`none`,
modelling the Go panic from the nil dereference or the out-of-bounds slice
`[0:3]`). -/
theorem pullRequest_Spec_total_iff (r : PullRequest) :
    (PullRequest.Spec r).isSome = true ↔
      (r.HTMLURL.isSome = true ∧ r.Number.isSome = true ∧
        3 ≤ (goSplit (goTrim (r.HTMLURL.getD "") "https://") '/').length) := by
  obtain ⟨u, n⟩ := r
  cases u with
  | none => simp [PullRequest.Spec]
  | some url =>
    cases n with
    | none =>
      by_cases h : 3 ≤ (goSplit (goTrim url "https://") '/').length <;>
        simp [PullRequest.Spec, h]
    | some n =>
      by_cases h : 3 ≤ (goSplit (goTrim url "https://") '/').length <;>
        simp [PullRequest.Spec, h]

/-- C10: `EditComment` fails (with the error `comment ID not specified`)
exactly when the comment's `ID` field is nil, in which case it returns
before any URL or request is built; when `ID` is non-nil the route variables
it passes on are those of
`PullRequestCommentSpec{Pull: pull, Comment: *comment.ID}`. -/
theorem editComment_id_check (pull : PullRequestSpec) (comment : PullRequestComment) :
    ((∃ e, editCommentRouteVars pull comment = Except.error e) ↔ comment.ID = none)
  ∧ (comment.ID = none →
      editCommentRouteVars pull comment =
        Except.error (Err.custom "comment ID not specified"))
  ∧ (∀ id, comment.ID = some id →
      editCommentRouteVars pull comment =
        Except.ok (PullRequestCommentSpec.RouteVars { Pull := pull, Comment := id })) := by
  obtain ⟨pub, id⟩ := comment
  cases id <;> simp [editCommentRouteVars]

/-- Witness for C10 at a concrete nil-ID comment. -/
theorem editComment_id_check_witness :
    editCommentRouteVars { Repo := { URI := "a/b" }, Number := 5 }
        { Published := true, ID := none } =
      Except.error (Err.custom "comment ID not specified") :=
  (editComment_id_check { Repo := { URI := "a/b" }, Number := 5 }
    { Published := true, ID := none }).2.1 rfl

/-- C1: unmarshalling is a left inverse of `RouteVars` for both composite
specs — given that the RepoSpec collaborator recovers the repo from any map
whose `RepoSpec` entry is its URI — for every spec whose numeric fields are
representable as Go 64-bit `int`s. -/
theorem unmarshal_leftInverse_routeVars
    (s : PullRequestSpec) (c : PullRequestCommentSpec)
    (hs : ∀ v : RouteVarsMap, mapGet v "RepoSpec" = s.Repo.URI →
      UnmarshalRepoSpec v = (s.Repo, none))
    (hc : ∀ v : RouteVarsMap, mapGet v "RepoSpec" = c.Pull.Repo.URI →
      UnmarshalRepoSpec v = (c.Pull.Repo, none))
    (hn1 : intMin ≤ s.Number) (hn2 : s.Number ≤ intMax)
    (hm1 : intMin ≤ c.Pull.Number) (hm2 : c.Pull.Number ≤ intMax)
    (hk1 : intMin ≤ c.Comment) (hk2 : c.Comment ≤ intMax) :
    UnmarshalPullRequestSpec s.RouteVars = (s, none)
  ∧ UnmarshalPullRequestCommentSpec c.RouteVars = (c, none) := by
  constructor
  · have hget1 : mapGet s.RouteVars "RepoSpec" = s.Repo.URI := by
      simp [PullRequestSpec.RouteVars, mapGet]
    have hget2 : mapGet s.RouteVars "Pull" = goItoa s.Number := by
      simp [PullRequestSpec.RouteVars, mapGet]
    simp [UnmarshalPullRequestSpec, hs _ hget1, hget2,
      goAtoi_goItoa s.Number hn1 hn2]
  · have hrv : c.RouteVars = [("RepoSpec", c.Pull.Repo.URI),
        ("Pull", goItoa c.Pull.Number), ("CommentID", goItoa c.Comment)] := by
      simp [PullRequestCommentSpec.RouteVars, PullRequestSpec.RouteVars, mapSet]
    have hget1 : mapGet c.RouteVars "RepoSpec" = c.Pull.Repo.URI := by
      rw [hrv]; simp [mapGet]
    have hget2 : mapGet c.RouteVars "Pull" = goItoa c.Pull.Number := by
      rw [hrv]; simp [mapGet]
    have hget3 : mapGet c.RouteVars "CommentID" = goItoa c.Comment := by
      rw [hrv]; simp [mapGet]
    have hpull : UnmarshalPullRequestSpec c.RouteVars = (c.Pull, none) := by
      simp [UnmarshalPullRequestSpec, hc _ hget1, hget2,
        goAtoi_goItoa c.Pull.Number hm1 hm2]
    simp [UnmarshalPullRequestCommentSpec, hpull, hget3,
      goAtoi_goItoa c.Comment hk1 hk2]

/-- Witness for C1 at concrete specs. -/
theorem unmarshal_leftInverse_routeVars_witness :
    UnmarshalPullRequestSpec
        (PullRequestSpec.RouteVars { Repo := { URI := "a/b" }, Number := 5 }) =
      ({ Repo := { URI := "a/b" }, Number := 5 }, none)
  ∧ UnmarshalPullRequestCommentSpec (PullRequestCommentSpec.RouteVars
        { Pull := { Repo := { URI := "a/b" }, Number := 5 }, Comment := 7 }) =
      ({ Pull := { Repo := { URI := "a/b" }, Number := 5 }, Comment := 7 }, none) :=
  unmarshal_leftInverse_routeVars
    { Repo := { URI := "a/b" }, Number := 5 }
    { Pull := { Repo := { URI := "a/b" }, Number := 5 }, Comment := 7 }
    (fun v hv => by simp [UnmarshalRepoSpec, hv])
    (fun v hv => by simp [UnmarshalRepoSpec, hv])
    (by decide) (by decide) (by decide) (by decide) (by decide) (by decide)

/-- C6: `UnmarshalPullRequestSpec` errors exactly when repo extraction fails
or the `Pull` entry does not `Atoi`-parse (an absent key reads as `""`,
which is a syntax error); a repo-extraction error is returned unchanged; and
when repo extraction fails the result does not depend on the `Pull` entry at
all. -/
theorem unmarshalPullRequestSpec_errors (v : RouteVarsMap) :
    ((UnmarshalPullRequestSpec v).2 ≠ none ↔
      ((UnmarshalRepoSpec v).2 ≠ none ∨ (goAtoi (mapGet v "Pull")).2 ≠ none))
  ∧ (∀ e, (UnmarshalRepoSpec v).2 = some e → (UnmarshalPullRequestSpec v).2 = some e)
  ∧ ((UnmarshalRepoSpec v).2 ≠ none →
      ∀ p, UnmarshalPullRequestSpec (mapSet v "Pull" p) = UnmarshalPullRequestSpec v)
  ∧ (goAtoi "").2 = some (Err.numError "Atoi" "" NumErrKind.malformed) := by
  refine ⟨?_, ?_, ?_, by decide⟩
  · cases h : (UnmarshalRepoSpec v).2 with
    | none => simp [UnmarshalPullRequestSpec, h]
    | some e => simp [UnmarshalPullRequestSpec, h]
  · intro e he
    simp [UnmarshalPullRequestSpec, he]
  · intro hrepo p
    have hkey : mapGet (mapSet v "Pull" p) "RepoSpec" = mapGet v "RepoSpec" :=
      mapGet_mapSet_ne v "Pull" "RepoSpec" p (by decide)
    have hrs : UnmarshalRepoSpec (mapSet v "Pull" p) = UnmarshalRepoSpec v := by
      simp [UnmarshalRepoSpec, hkey]
    obtain ⟨e, he⟩ := Option.ne_none_iff_exists'.mp hrepo
    simp [UnmarshalPullRequestSpec, hrs, he]

/-- Witness for C6: a map with no `RepoSpec` entry makes the repo error
propagate unchanged. -/
theorem unmarshalPullRequestSpec_errors_witness :
    (UnmarshalPullRequestSpec [("Pull", "5")]).2 = some Err.repoSpecMissing :=
  (unmarshalPullRequestSpec_errors [("Pull", "5")]).2.1 Err.repoSpecMissing (by decide)

/-- Counterexample to C7: on `{RepoSpec:"a/b", Pull:"x"}` the pull-request
unmarshal errors, yet the spec returned alongside the error is not the
zero-value spec — it carries the successfully-extracted repo `a/b`. -/
theorem unmarshal_allOrNothing_cex :
    ((UnmarshalPullRequestSpec [("RepoSpec", "a/b"), ("Pull", "x")]).2 ≠ none)
  ∧ (UnmarshalPullRequestSpec [("RepoSpec", "a/b"), ("Pull", "x")]).1 ≠
      { Repo := { URI := "" }, Number := 0 } := by decide

/-- C7 amended: `UnmarshalPullRequestCommentSpec` is all-or-nothing (every
error comes with the zero-value spec), but `UnmarshalPullRequestSpec` is
not: on error its result still carries whatever the repo extraction
returned, which is a populated repo whenever only the `Pull` parse failed. -/
theorem unmarshal_allOrNothing_amended (v : RouteVarsMap) :
    ((UnmarshalPullRequestCommentSpec v).2 ≠ none →
      (UnmarshalPullRequestCommentSpec v).1 =
        { Pull := { Repo := { URI := "" }, Number := 0 }, Comment := 0 })
  ∧ ((UnmarshalPullRequestSpec v).2 ≠ none →
      (UnmarshalPullRequestSpec v).1.Repo = (UnmarshalRepoSpec v).1) := by
  constructor
  · intro h
    cases h1 : (UnmarshalPullRequestSpec v).2 with
    | some e => simp [UnmarshalPullRequestCommentSpec, h1]
    | none =>
      cases h2 : (goAtoi (mapGet v "CommentID")).2 with
      | some e => simp [UnmarshalPullRequestCommentSpec, h1, h2]
      | none =>
        exact absurd (show (UnmarshalPullRequestCommentSpec v).2 = none by
          simp [UnmarshalPullRequestCommentSpec, h1, h2]) h
  · intro _
    cases h1 : (UnmarshalRepoSpec v).2 <;> simp [UnmarshalPullRequestSpec, h1]

/-- Witness for C7's amended statement: the comment unmarshal returns the
zero-value spec on a failing input. -/
theorem unmarshal_allOrNothing_amended_witness :
    (UnmarshalPullRequestCommentSpec [("RepoSpec", "a/b"), ("Pull", "x")]).1 =
      { Pull := { Repo := { URI := "" }, Number := 0 }, Comment := 0 } :=
  (unmarshal_allOrNothing_amended [("RepoSpec", "a/b"), ("Pull", "x")]).1 (by decide)

theorem string_data_append (a b : String) : (a ++ b).data = a.data ++ b.data := rfl

theorem string_mk_ne_empty (c : Char) (cs : List Char) :
    ({ data := c :: cs } : String) ≠ "" := by
  intro he
  exact absurd (congrArg String.data he) (by simp)

/-- C3: the grammar of `ParsePersonSpec` is checked in order — a `$`-prefixed
text succeeds exactly when the remainder is a non-empty digit string (giving
a UID spec, and InvalidFormat otherwise), then a text containing `@` becomes
`Email` verbatim, then anything else becomes `Login` verbatim; with the
concrete cases `"a"`, `"a@a.com"`, `"$1"`, `"$x"`. -/
theorem parsePersonSpec_grammar :
    (∀ (t : String) (d : List Char), t.data = '$' :: d →
      ((d ≠ [] → d.all Char.isDigit = true →
        ParsePersonSpec t =
          ({ Login := "", Email := "", UID := (parseDigits d : Int) }, none))
      ∧ ((d = [] ∨ d.all Char.isDigit = false) →
        ParsePersonSpec t =
          ({ Login := "", Email := "", UID := 0 }, some Err.invalidFormat))))
  ∧ (∀ t : String, t.data.head? ≠ some '$' → '@' ∈ t.data →
      ParsePersonSpec t = ({ Login := "", Email := t, UID := 0 }, none))
  ∧ (∀ t : String, t.data.head? ≠ some '$' → '@' ∉ t.data →
      ParsePersonSpec t = ({ Login := t, Email := "", UID := 0 }, none))
  ∧ ParsePersonSpec "a" = ({ Login := "a", Email := "", UID := 0 }, none)
  ∧ ParsePersonSpec "a@a.com" = ({ Login := "", Email := "a@a.com", UID := 0 }, none)
  ∧ ParsePersonSpec "$1" = ({ Login := "", Email := "", UID := 1 }, none)
  ∧ ParsePersonSpec "$x" =
      ({ Login := "", Email := "", UID := 0 }, some Err.invalidFormat) := by
  refine ⟨?_, ?_, ?_, by decide, by decide, by decide, by decide⟩
  · intro t d hd
    constructor
    · intro hne hdig
      simp [ParsePersonSpec, hd, hne, hdig]
    · intro hbad
      rcases hbad with hbad | hbad
      · subst hbad
        simp [ParsePersonSpec, hd]
      · simp [ParsePersonSpec, hd, hbad]
  · intro t hS hA
    simp [ParsePersonSpec, hS, hA]
  · intro t hS hA
    simp [ParsePersonSpec, hS, hA]

/-- Witness for C3 at the `$`-branch input `"$1"`. -/
theorem parsePersonSpec_grammar_witness :
    ParsePersonSpec "$1" = ({ Login := "", Email := "", UID := (parseDigits ['1'] : Int) }, none) :=
  (parsePersonSpec_grammar.1 "$1" ['1'] rfl).1 (by decide) (by decide)

/-- Counterexample to C8: the empty string is accepted by `ParsePersonSpec`
(as a verbatim empty `Login`), and the resulting spec has no populated field
at all, violating the claimed exactly-one invariant. -/
theorem parsePersonSpec_invariant_cex :
    (ParsePersonSpec "").2 = none ∧ popCount (ParsePersonSpec "").1 = 0 := by decide

/-- C8 amended: every spec returned without error has at most one populated
field, and it has none exactly when the text is empty or is `$` followed by
digits denoting zero. -/
theorem parsePersonSpec_invariant_amended (t : String)
    (h : (ParsePersonSpec t).2 = none) :
    popCount (ParsePersonSpec t).1 ≤ 1
  ∧ (popCount (ParsePersonSpec t).1 = 0 ↔
      t = "" ∨ ∃ d, t.data = '$' :: d ∧ parseDigits d = 0) := by
  obtain ⟨data⟩ := t
  cases data with
  | nil =>
    refine ⟨by decide, ?_, fun _ => by decide⟩
    intro _
    exact Or.inl (by decide)
  | cons c cs =>
    by_cases hc : c = '$'
    · subst hc
      by_cases hgood : cs ≠ [] ∧ cs.all Char.isDigit = true
      · have hp : ParsePersonSpec ⟨'$' :: cs⟩ =
            ({ Login := "", Email := "", UID := (parseDigits cs : Int) }, none) := by
          simp [ParsePersonSpec, hgood.1, hgood.2]
        rw [hp]
        refine ⟨?_, ?_, ?_⟩
        · by_cases h0 : 0 < parseDigits cs <;> simp [popCount, h0]
        · intro hz
          refine Or.inr ⟨cs, rfl, ?_⟩
          by_contra hnz
          simp [popCount, Nat.pos_of_ne_zero hnz] at hz
        · rintro (hemp | ⟨d, hd, hz⟩)
          · exact absurd hemp (string_mk_ne_empty '$' cs)
          · have hd' : '$' :: cs = '$' :: d := hd
            injection hd' with _ hcd
            subst hcd
            simp [popCount, hz]
      · exfalso
        have hbad : (ParsePersonSpec ⟨'$' :: cs⟩).2 = some Err.invalidFormat := by
          simp only [ParsePersonSpec, List.head?_cons, List.tail_cons, reduceIte]
          rw [if_neg hgood]
        rw [hbad] at h
        exact Option.noConfusion h
    · by_cases hA : '@' ∈ (c :: cs : List Char)
      · have hp : ParsePersonSpec ⟨c :: cs⟩ =
            ({ Login := "", Email := ⟨c :: cs⟩, UID := 0 }, none) := by
          simp [ParsePersonSpec, hc, hA]
        rw [hp]
        refine ⟨?_, ?_, ?_⟩
        · simp [popCount, string_mk_ne_empty c cs]
        · intro hz
          exfalso
          simp [popCount, string_mk_ne_empty c cs] at hz
        · rintro (hemp | ⟨d, hd, hz⟩)
          · exact absurd hemp (string_mk_ne_empty c cs)
          · exact absurd hd (by simp [hc])
      · have hp : ParsePersonSpec ⟨c :: cs⟩ =
            ({ Login := ⟨c :: cs⟩, Email := "", UID := 0 }, none) := by
          simp [ParsePersonSpec, hc, hA]
        rw [hp]
        refine ⟨?_, ?_, ?_⟩
        · simp [popCount, string_mk_ne_empty c cs]
        · intro hz
          exfalso
          simp [popCount, string_mk_ne_empty c cs] at hz
        · rintro (hemp | ⟨d, hd, hz⟩)
          · exact absurd hemp (string_mk_ne_empty c cs)
          · exact absurd hd (by simp [hc])

/-- Witness for C8's amended statement at `"$0"`: accepted, and all fields
zero because the digits denote zero. -/
theorem parsePersonSpec_invariant_amended_witness :
    popCount (ParsePersonSpec "$0").1 = 0 :=
  (parsePersonSpec_invariant_amended "$0" (by decide)).2.mpr
    (Or.inr ⟨['0'], rfl, by decide⟩)

/-- Specs on which the person-spec grammar is actually invertible: exactly
one populated field, a non-negative UID (spec section 3), and — per the
ambiguity the spec itself concedes in section 6 — a login that neither
contains `@` nor starts with `$`, and an email that contains `@` and does
not start with `$`. -/
abbrev CanonicalPersonSpec (s : PersonSpec) : Prop :=
  (s.Login ≠ "" ∧ s.Email = "" ∧ s.UID = 0 ∧ '@' ∉ s.Login.data ∧
    s.Login.data.head? ≠ some '$')
  ∨ (s.Login = "" ∧ s.Email ≠ "" ∧ s.UID = 0 ∧ '@' ∈ s.Email.data ∧
    s.Email.data.head? ≠ some '$')
  ∨ (s.Login = "" ∧ s.Email = "" ∧ 0 < s.UID)

/-- Counterexample to C2: the spec `{Login:"a@b"}` has exactly one populated
field, yet parsing its formatted form does not give it back — the `@` inside
the login makes the text re-parse as an email spec (the ambiguity the spec
itself concedes in section 6). -/
theorem personSpec_roundTrip_cex :
    popCount { Login := "a@b", Email := "", UID := 0 } = 1
  ∧ ParsePersonSpec (PersonSpec.PathComponent { Login := "a@b", Email := "", UID := 0 }) ≠
      ({ Login := "a@b", Email := "", UID := 0 }, none) := by decide

/-- C2 amended: `Parse ∘ Format = id` on canonical specs (exactly one
populated field, logins without `@` or a leading `$`, emails containing `@`
and not starting with `$`); and `Format ∘ Parse = id` on every accepted text
except `$`-texts whose digit part is zero or not in canonical form (leading
zeros). -/
theorem personSpec_roundTrip_amended :
    (∀ s : PersonSpec, CanonicalPersonSpec s →
      ParsePersonSpec s.PathComponent = (s, none))
  ∧ (∀ t : String, (ParsePersonSpec t).2 = none →
      (∀ d, t.data = '$' :: d → d = natToDigits (parseDigits d) ∧ parseDigits d ≠ 0) →
      (ParsePersonSpec t).1.PathComponent = t) := by
  constructor
  · rintro ⟨L, E, U⟩ (⟨h1, h2, h3, h4, h5⟩ | ⟨h1, h2, h3, h4, h5⟩ | ⟨h1, h2, h3⟩)
    · dsimp only at h1 h2 h3 h4 h5
      subst h2 h3
      have hfmt : PersonSpec.PathComponent { Login := L, Email := "", UID := 0 } = L := by
        simp [PersonSpec.PathComponent]
      rw [hfmt]
      simp [ParsePersonSpec, h5, h4]
    · dsimp only at h1 h2 h3 h4 h5
      subst h1 h3
      have hfmt : PersonSpec.PathComponent { Login := "", Email := E, UID := 0 } = E := by
        simp [PersonSpec.PathComponent, h2]
      rw [hfmt]
      simp [ParsePersonSpec, h5, h4]
    · dsimp only at h1 h2 h3
      subst h1 h2
      have hfmt : PersonSpec.PathComponent { Login := "", Email := "", UID := U } =
          "$" ++ goItoa U := by
        simp [PersonSpec.PathComponent, h3]
      rw [hfmt]
      have hdata : ("$" ++ goItoa U).data = '$' :: natToDigits U.toNat := by
        rw [string_data_append]
        simp [goItoa, not_lt_of_lt h3, Int.not_lt.mpr (le_of_lt h3)]
      have hval : (parseDigits (natToDigits U.toNat) : Int) = U := by
        rw [parseDigits_natToDigits]
        exact Int.toNat_of_nonneg (le_of_lt h3)
      simp [ParsePersonSpec, hdata, natToDigits_ne_nil U.toNat,
        natToDigits_all_digit U.toNat, hval]
  · intro t h hcanon
    obtain ⟨data⟩ := t
    cases data with
    | nil => rfl
    | cons c cs =>
      by_cases hc : c = '$'
      · subst hc
        obtain ⟨hform, hnz⟩ := hcanon cs rfl
        by_cases hgood : cs ≠ [] ∧ cs.all Char.isDigit = true
        · have hp : ParsePersonSpec ⟨'$' :: cs⟩ =
              ({ Login := "", Email := "", UID := (parseDigits cs : Int) }, none) := by
            simp [ParsePersonSpec, hgood.1, hgood.2]
          rw [hp]
          have hpos : (0 : Int) < (parseDigits cs : Int) := by
            exact_mod_cast Nat.pos_of_ne_zero hnz
          have hfmt : PersonSpec.PathComponent
              { Login := "", Email := "", UID := (parseDigits cs : Int) } =
              "$" ++ goItoa (parseDigits cs : Int) := by
            simp [PersonSpec.PathComponent, hpos]
          rw [hfmt]
          apply String.ext
          rw [string_data_append]
          simp [goItoa, Int.not_lt.mpr (le_of_lt hpos), Int.toNat_natCast, ← hform]
        · exfalso
          have hbad : (ParsePersonSpec ⟨'$' :: cs⟩).2 = some Err.invalidFormat := by
            simp only [ParsePersonSpec, List.head?_cons, List.tail_cons, reduceIte]
            rw [if_neg hgood]
          rw [hbad] at h
          exact Option.noConfusion h
      · by_cases hA : '@' ∈ (c :: cs : List Char)
        · have hp : ParsePersonSpec ⟨c :: cs⟩ =
              ({ Login := "", Email := ⟨c :: cs⟩, UID := 0 }, none) := by
            simp [ParsePersonSpec, hc, hA]
          rw [hp]
          simp [PersonSpec.PathComponent, string_mk_ne_empty c cs]
        · have hp : ParsePersonSpec ⟨c :: cs⟩ =
              ({ Login := ⟨c :: cs⟩, Email := "", UID := 0 }, none) := by
            simp [ParsePersonSpec, hc, hA]
          rw [hp]
          simp [PersonSpec.PathComponent]

/-- Witness for C2's amended statement: both directions at concrete
canonical inputs (`{UID:7}` and the text `"name"`). -/
theorem personSpec_roundTrip_amended_witness :
    ParsePersonSpec (PersonSpec.PathComponent { Login := "", Email := "", UID := 7 }) =
      ({ Login := "", Email := "", UID := 7 }, none)
  ∧ PersonSpec.PathComponent (ParsePersonSpec "name").1 = "name" :=
  ⟨personSpec_roundTrip_amended.1 { Login := "", Email := "", UID := 7 } (by decide),
   personSpec_roundTrip_amended.2 "name" (by decide)
     (fun d hd =>
       absurd (show ("name" : String).data.head? = some '$' by rw [hd]; rfl)
         (by decide))⟩

theorem goJoin_three (a b c sep : String) :
    goJoin [a, b, c] sep = a ++ sep ++ b ++ sep ++ c := by
  simp [goJoin]

/-- C5: on a pull request whose `HTMLURL` has the well-formed shape
`https://host/seg1/seg2/...` (and a non-nil `Number`), `Spec` returns the
spec whose `Repo.URI` is the host joined with the first two path segments by
`/` and whose `Number` is the struct's `Number` field. -/
theorem pullRequest_Spec_extracts (r : PullRequest) (url host s1 s2 : String)
    (rest : List String) (n : Int)
    (h1 : r.HTMLURL = some url) (h2 : r.Number = some n)
    (h3 : goSplit (goTrim url "https://") '/' = host :: s1 :: s2 :: rest) :
    PullRequest.Spec r =
      some { Repo := { URI := host ++ "/" ++ s1 ++ "/" ++ s2 }, Number := n } := by
  obtain ⟨u, m⟩ := r
  dsimp only at h1 h2
  subst h1 h2
  simp [PullRequest.Spec, h3, goJoin_three]

/-- Witness for C5 at a concrete four-segment URL. -/
theorem pullRequest_Spec_extracts_witness :
    PullRequest.Spec { HTMLURL := some "https://src.net/o/r/pulls/3", Number := some 3 } =
      some { Repo := { URI := "src.net" ++ "/" ++ "o" ++ "/" ++ "r" }, Number := 3 } :=
  pullRequest_Spec_extracts
    { HTMLURL := some "https://src.net/o/r/pulls/3", Number := some 3 }
    "https://src.net/o/r/pulls/3" "src.net" "o" "r" ["pulls", "3"] 3 rfl rfl (by decide)
